import Mathlib

/-
Verification development for the ctutlz TLS handshake module
(ctutlz/tls/handshake.py).  The module performs one instrumented TLS
handshake per call: it installs a hook capturing the raw bytes of TLS
extension 18, a hook collecting stapled OCSP responses, retrieves the
peer certificate and chain, serialises leaf and issuer to DER, and
decodes the embedded Certificate Transparency extension of a
certificate down to the raw SCT-list bytes.

Bytes are modelled as `List Nat` (each element intended < 256).
Python exceptions are modelled by the inductive `PyExc`; fallible
Python code returns `Except PyExc`.
-/

/-- Python exception classes that can escape the modelled code paths.
Each constructor stands for a distinct Python exception type, so a
caller can distinguish the faults by type, as in Python. -/
inductive PyExc where
  | indexError
  | connectionError
  | sslError
  | structError
  | binasciiError
  | pyasn1Error
deriving DecidableEq

/-- Big-endian base-256 digits of a natural number, most significant
first; `0` encodes as the empty list.  Used for DER long-form lengths. -/
def natToBytes (n : Nat) : List Nat :=
  if h : n = 0 then [] else natToBytes (n / 256) ++ [n % 256]
termination_by n
decreasing_by exact Nat.div_lt_self (Nat.pos_of_ne_zero h) (by omega)

/-- Value of a big-endian base-256 digit list. -/
def bytesToNat (bs : List Nat) : Nat :=
  bs.foldl (fun a b => a * 256 + b) 0

/-- DER definite-length encoding of a length `n`: short form below 128,
otherwise long form `(0x80 + k) :: k length bytes`. -/
def derLen (n : Nat) : List Nat :=
  if n < 128 then [n] else (128 + (natToBytes n).length) :: natToBytes n

/-- DER encoding of a primitive OCTET STRING with content `p`:
tag `0x04`, definite length, content bytes.  This is the encoder side
of the inner container that the CT extension value wraps around the
raw SCT-list bytes. -/
def derOctetString (p : List Nat) : List Nat :=
  4 :: derLen p.length ++ p

/-- Models the external pyasn1 DER decoder restricted to the only shape
the module asks of it, `der_decoder(b, OctetString())`: parse tag
`0x04` and a definite length, return the content octets (trailing
bytes are returned as a remainder by pyasn1 and ignored by the
module).  Any other shape raises, modelled as `PyExc.pyasn1Error`. -/
def decodeOctetString : List Nat → Except PyExc (List Nat)
  | 4 :: l :: rest =>
    if l < 128 then
      if l ≤ rest.length then .ok (rest.take l) else .error .pyasn1Error
    else if l - 128 = 0 then .error .pyasn1Error
    else if l - 128 ≤ rest.length then
      if bytesToNat (rest.take (l - 128)) ≤ (rest.drop (l - 128)).length then
        .ok ((rest.drop (l - 128)).take (bytesToNat (rest.take (l - 128))))
      else .error .pyasn1Error
    else .error .pyasn1Error
  | _ => .error .pyasn1Error

/-- Lowercase hexadecimal digit character for a value below 16,
as produced by the Python format `%.2x`. -/
def hexDigitChar (n : Nat) : Char :=
  if n < 10 then Char.ofNat (48 + n)
  else if n < 16 then Char.ofNat (87 + n)
  else 'f'

/-- Two lowercase hex digits per byte, as `%.2x` joined over a byte
string (assuming each element is a byte, below 256). -/
def hexlify : List Nat → List Char
  | [] => []
  | b :: rest => hexDigitChar (b / 16) :: hexDigitChar (b % 16) :: hexlify rest

/-- Numeric value of a hexadecimal digit character, both cases,
`none` on a non-hex character; the digit alphabet accepted by
Python `binascii.unhexlify`. -/
def hexDigitVal (c : Char) : Option Nat :=
  if 48 ≤ c.toNat ∧ c.toNat ≤ 57 then some (c.toNat - 48)
  else if 97 ≤ c.toNat ∧ c.toNat ≤ 102 then some (c.toNat - 87)
  else if 65 ≤ c.toNat ∧ c.toNat ≤ 70 then some (c.toNat - 55)
  else none

/-- Models Python `binascii.unhexlify` on a string given as a character
list: pairs of hex digits to bytes, raising `binascii.Error` (modelled
as `PyExc.binasciiError`) on an odd-length input or a non-hex digit. -/
def unhexlify : List Char → Except PyExc (List Nat)
  | [] => .ok []
  | [_] => .error .binasciiError
  | c1 :: c2 :: rest =>
    match hexDigitVal c1, hexDigitVal c2 with
    | some h1, some h2 =>
      match unhexlify rest with
      | .ok bs => .ok ((h1 * 16 + h2) :: bs)
      | .error e => .error e
    | _, _ => .error .binasciiError

/-- Python 3 `str` of a byte string under the latin-1 decoding used by
pyasn1 OctetString: each byte becomes the character of the same code. -/
def pyBytesStr (bs : List Nat) : List Char :=
  bs.map Char.ofNat

/-- Models pyasn1 `OctetString.prettyPrint`: if any octet lies outside
the printable ASCII range 32..126, the result is the string `0x`
followed by the lowercase hex digits of all octets; otherwise it is
the text decoding of the octets. -/
def prettyPrintOctets (bs : List Nat) : List Char :=
  if bs.any (fun b => decide (b < 32 ∨ 126 < b)) then
    '0' :: 'x' :: hexlify bs
  else
    pyBytesStr bs

/-- Suffix of `s` after the last occurrence of `sep` as a contiguous
sublist, `none` when `sep` does not occur.  An occurrence found in the
tail starts strictly later, so the tail result takes precedence. -/
def afterLastOpt (sep : List Char) : List Char → Option (List Char)
  | [] => none
  | c :: rest =>
    match afterLastOpt sep rest with
    | some t => some t
    | none =>
      if sep.isPrefixOf (c :: rest) then some ((c :: rest).drop sep.length)
      else none

/-- Models the Python expression `s.split(sep)[-1]` for the fixed
separator `0x` of the module: the suffix after the last occurrence of
`sep`, or all of `s` when `sep` does not occur.  The separator `0x`
cannot overlap itself, so the left-to-right non-overlapping scan of
Python `split` finds every occurrence and its last field is exactly
this suffix. -/
def pySplitLast (sep s : List Char) : List Char :=
  (afterLastOpt sep s).getD s

/-- Lines 174-178 of handshake.py, the inner-unwrap stage of
`scts_from_cert`: decode the extension value content as an OCTET
STRING with the external DER decoder, pretty-print the resulting
octets, split on `0x`, take the last field, and unhexlify it back to
bytes.  The result is the raw SCT-list byte string handed to the
external list codec. -/
def unwrap_extnValue (os_inner_der : List Nat) : Except PyExc (List Nat) :=
  match decodeOctetString os_inner_der with
  | .error e => .error e
  | .ok os_inner =>
    unhexlify (pySplitLast ['0', 'x'] (prettyPrintOctets os_inner))

/-- An X.509 certificate, abstracted to the content octets of its DER
SEQUENCE.  The external serialiser below re-attaches the fixed
SEQUENCE framing, so distinct framings never arise. -/
structure Cert where
  body : List Nat
deriving DecidableEq

/-- Models `OpenSSL.crypto.dump_certificate(FILETYPE_ASN1, cert)`, the
canonical DER serialisation of a certificate: tag `0x30` (SEQUENCE),
definite length, content octets. -/
def dump_certificate (cert : Cert) : List Nat :=
  48 :: derLen cert.body.length ++ cert.body

/-- Lines 26-28 of handshake.py: the dummy peer-verification callback
passed with `VERIFY_PEER` to `ctx.set_verify`.  Arguments are the
connection, the certificate, the error number, the depth, and the
preliminary verdict; the result `1` means the chain is accepted. -/
def verify_callback (conn : Nat) (cert : Cert) (errnum : Int) (depth : Nat)
    (ok : Nat) : Nat :=
  1

/-- The observable state of the PyOpenSSL context built by
`create_context`: the two capture flags (deciding which hooks are
registered), the installed verification callback, whether
`load_verify_locations` was called with the certifi CA bundle, and the
two capture slots `tls_extension_18_tdf` and `ocsp_resps` that the
hooks write. -/
structure Ctx where
  scts_tls : Bool
  scts_ocsp : Bool
  verify_cb : Nat → Cert → Int → Nat → Nat → Nat
  ca_loaded : Bool
  tls_extension_18_tdf : Option (List Nat)
  ocsp_resps : List (List Nat)

/-- Lines 19-85 of handshake.py, the state set up by `create_context`:
verification callback installed, certifi CA bundle loaded,
`tls_extension_18_tdf` initialised to `None`, `ocsp_resps` to `[]`.
Hook registration is recorded by the two flags; the extension-18 hook
body and the OCSP hook body are modelled below as functions on `Ctx`. -/
def create_context (scts_tls scts_ocsp : Bool) : Ctx :=
  { scts_tls := scts_tls
    scts_ocsp := scts_ocsp
    verify_cb := verify_callback
    ca_loaded := true
    tls_extension_18_tdf := none
    ocsp_resps := [] }

/-- The two bytes of the big-endian Python struct format `!H` for a
value below 65536. -/
def u16be (v : Nat) : List Nat :=
  [v / 256, v % 256]

/-- Models `struct.pack` for the format family `!HH<L>s` built by the
reduce in `serverinfo_cli_parse_cb`: two big-endian 16-bit fields
followed by a byte field padded with zeros or truncated to exactly `L`
bytes.  `struct.error` (modelled as `PyExc.structError`) is raised when
a 16-bit field does not fit. -/
def structPackHHs (v1 v2 L : Nat) (s : List Nat) : Except PyExc (List Nat) :=
  if v1 < 65536 ∧ v2 < 65536 then
    .ok (u16be v1 ++ u16be v2 ++ (s.take L ++ List.replicate (L - s.length) 0))
  else
    .error .structError

/-- Lines 46-61 of handshake.py: the extension hook registered through
`SSL_CTX_add_client_custom_ext`.  `inBuf` is the memory behind the
`_in` pointer and `inlen` the declared length, so
`bytes(ffi.buffer(_in, inlen))` is modelled as `inBuf.take inlen`
(the TLS layer always passes a buffer of exactly `inlen` bytes).
For extension type 18 the hook packs `!HH<inlen>s` over
`(ext_type, inlen, data)` and stores the record in the context slot,
then returns `1`; for any other type it returns `1` untouched. -/
def serverinfo_cli_parse_cb (ctx : Ctx) (ext_type : Nat) (inBuf : List Nat)
    (inlen : Nat) : Except PyExc (Ctx × Nat) :=
  if ext_type = 18 then
    match structPackHHs ext_type inlen inlen (inBuf.take inlen) with
    | .ok tdf => .ok ({ ctx with tls_extension_18_tdf := some tdf }, 1)
    | .error e => .error e
  else
    .ok (ctx, 1)

/-- Lines 79-81 of handshake.py: the OCSP hook appends the raw stapled
response bytes to the context buffer and reports acceptance. -/
def ocsp_client_callback (ctx : Ctx) (ocsp_data : List Nat) : Ctx × Bool :=
  ({ ctx with ocsp_resps := ctx.ocsp_resps ++ [ocsp_data] }, true)

/-- One hook invocation performed by the TLS layer during the
handshake: either the extension-18 hook with its declared type, buffer
and length, or the OCSP hook with a stapled response. -/
inductive NetEvent where
  | ext18 (ext_type : Nat) (inBuf : List Nat) (inlen : Nat)
  | ocsp (respData : List Nat)
deriving DecidableEq

/-- The stapled response carried by an OCSP hook event. -/
def ocspData : NetEvent → Option (List Nat)
  | .ocsp d => some d
  | _ => none

/-- What the network lets the handshake do: fail while connecting,
fail during the TLS handshake, or succeed after invoking the
registered hooks on `events`, with the peer leaf certificate and the
peer chain as presented. -/
inductive NetBehavior where
  | connectFail (e : PyExc)
  | handshakeFail (e : PyExc)
  | ok (events : List NetEvent) (peerCert : Cert) (chain : List Cert)
deriving DecidableEq

/-- Socket operations in the order `do_handshake` performs them; used
to state the resource claims about `request_ocsp`, `connect` and
`close`. -/
inductive SockOp where
  | reqOcsp
  | connect
  | handshake
  | close
deriving DecidableEq

/-- Effect of one hook invocation on the context.  A hook runs only if
registration was requested by the matching flag; the extension hook
cannot raise for inputs the TLS layer produces (`inlen` fits 16 bits),
so the error branch leaves the context unchanged. -/
def applyEvent (ctx : Ctx) : NetEvent → Ctx
  | .ext18 t buf n =>
    if ctx.scts_tls then
      match serverinfo_cli_parse_cb ctx t buf n with
      | .ok (c, _) => c
      | .error _ => ctx
    else ctx
  | .ocsp d =>
    if ctx.scts_ocsp then (ocsp_client_callback ctx d).1 else ctx

/-- All hook invocations of one handshake, in order. -/
def runEvents (ctx : Ctx) (events : List NetEvent) : Ctx :=
  events.foldl applyEvent ctx

/-- Lines 100-138 of handshake.py, `do_handshake`: build the context
and socket, request OCSP stapling unconditionally, connect, perform
the handshake (during which the hooks fire), read the peer certificate
and chain, and read the capture slots guarded by the flags and by
Python truthiness (`if ctx.tls_extension_18_tdf`, `if ctx.ocsp_resps`
with `[0]`).  Any exception propagates unchanged; on every path the
socket is closed in the `finally` block.  Returns the result or the
propagated exception, paired with the ordered socket operations. -/
def do_handshake (domain : String) (scts_tls scts_ocsp : Bool)
    (net : NetBehavior) :
    Except PyExc (Cert × List Cert × Option (List Nat) × Option (List Nat)) ×
      List SockOp :=
  match net with
  | .connectFail e =>
    (.error e, [.reqOcsp, .connect, .close])
  | .handshakeFail e =>
    (.error e, [.reqOcsp, .connect, .handshake, .close])
  | .ok events peerCert chain =>
    let ctx := runEvents (create_context scts_tls scts_ocsp) events
    let tdf : Option (List Nat) :=
      if scts_tls then
        match ctx.tls_extension_18_tdf with
        | some v => if v = [] then none else some v
        | none => none
      else none
    let ocsp : Option (List Nat) :=
      if scts_ocsp then ctx.ocsp_resps.head? else none
    (.ok (peerCert, chain, ocsp, tdf), [.reqOcsp, .connect, .handshake, .close])

/-- Lines 141-158 of handshake.py, `cert_of_domain`: run the handshake,
serialise the peer certificate to DER, take `chain[1]` as the issuer
(raising `IndexError` when the chain has fewer than two entries, as
Python indexing does) and serialise it, passing the OCSP response and
the extension-18 record through. -/
def cert_of_domain (domain : String) (scts_tls scts_ocsp : Bool)
    (net : NetBehavior) :
    Except PyExc (List Nat × List Nat × Option (List Nat) × Option (List Nat)) ×
      List SockOp :=
  match do_handshake domain scts_tls scts_ocsp net with
  | (.error e, ops) => (.error e, ops)
  | (.ok (cert_x509, chain_x509s, ocsp_resp_der, tls_ext_18_tdf), ops) =>
    let cert_der := dump_certificate cert_x509
    match chain_x509s.get? 1 with
    | none => (.error .indexError, ops)
    | some issuer_cert_x509 =>
      (.ok (cert_der, dump_certificate issuer_cert_x509, ocsp_resp_der,
        tls_ext_18_tdf), ops)

/-- One decoded certificate extension as pyasn1 presents it after
`der_decoder(cert_der, rfc5280.Certificate())`: the dotted object
identifier text of `extnID` and the content octets of the `extnValue`
OCTET STRING (which for the CT extension are themselves a DER-encoded
inner OCTET STRING). -/
structure Extension where
  extnID : String
  extnValue : List Nat
deriving DecidableEq

/-- The decoded certificate structure, abstracted to what
`scts_from_cert` reads: its extension list.  The ASN.1 grammar decode
producing it is the external pyasn1 collaborator. -/
structure CertStruct where
  extensions : List Extension
deriving DecidableEq

/-- Line 169 of handshake.py: the filter predicate selecting the
Certificate Transparency SCT-list extension by object identifier. -/
def isCtExtension (e : Extension) : Bool :=
  decide (e.extnID = "1.3.6.1.4.1.11129.2.4.2")

/-- Lines 161-182 of handshake.py, `scts_from_cert` on the decoded
certificate structure: filter the extensions by the CT object
identifier; with no match return the empty list; otherwise unwrap the
first match with `unwrap_extnValue` and hand the resulting raw
SCT-list bytes to the external list codec (the
`SignedCertificateTimestampList` parse and per-entry `Sct`
construction), modelled by the function argument `codec`. -/
def scts_from_cert (codec : List Nat → List (List Nat)) (cert : CertStruct) :
    Except PyExc (List (List Nat)) :=
  match cert.extensions.filter isCtExtension with
  | [] => .ok []
  | e :: _ =>
    match unwrap_extnValue e.extnValue with
    | .ok sctlist_der => .ok (codec sctlist_der)
    | .error err => .error err

/-- Decoder for the wire record stored by the extension hook, the
inverse of `struct.pack` over `!HH<L>s`: two big-endian 16-bit fields
and exactly `L` remaining bytes. -/
def unpack_ext18_record (r : List Nat) : Option (Nat × Nat × List Nat) :=
  match r with
  | b0 :: b1 :: b2 :: b3 :: rest =>
    if rest.length = b2 * 256 + b3 then
      some (b0 * 256 + b1, b2 * 256 + b3, rest)
    else none
  | _ => none

theorem bytesToNat_append_single (l : List Nat) (x : Nat) :
    bytesToNat (l ++ [x]) = bytesToNat l * 256 + x := by
  simp [bytesToNat, List.foldl_append]

theorem bytesToNat_natToBytes (n : Nat) : bytesToNat (natToBytes n) = n := by
  induction n using Nat.strong_induction_on with
  | _ n ih =>
    rw [natToBytes]
    by_cases h : n = 0
    · simp [h, bytesToNat]
    · rw [dif_neg h, bytesToNat_append_single,
        ih (n / 256) (Nat.div_lt_self (Nat.pos_of_ne_zero h) (by omega))]
      omega

theorem natToBytes_ne_nil (n : Nat) (h : n ≠ 0) : natToBytes n ≠ [] := by
  rw [natToBytes, dif_neg h]
  simp

/-- The modelled pyasn1 decoder inverts the OCTET STRING encoder on
every content, both length forms. -/
theorem decode_derOctetString (p : List Nat) :
    decodeOctetString (derOctetString p) = .ok p := by
  unfold derOctetString derLen
  by_cases h : p.length < 128
  · rw [if_pos h]
    show decodeOctetString (4 :: p.length :: p) = .ok p
    simp [decodeOctetString, h, List.take_length]
  · rw [if_neg h]
    have hn0 : p.length ≠ 0 := by omega
    have hk : (natToBytes p.length).length ≠ 0 := by
      simpa using natToBytes_ne_nil p.length hn0
    show decodeOctetString
        (4 :: (128 + (natToBytes p.length).length) :: (natToBytes p.length ++ p))
        = .ok p
    simp only [decodeOctetString, Nat.add_sub_cancel_left]
    rw [if_neg (by omega), if_neg hk,
      if_pos (by simp [List.length_append]),
      List.take_left, List.drop_left, bytesToNat_natToBytes]
    rw [if_pos (le_refl p.length), List.take_length]

theorem hexDigitVal_hexDigitChar : ∀ n, n < 16 →
    hexDigitVal (hexDigitChar n) = some n := by decide

theorem hexDigitChar_ne_x : ∀ n, n < 16 → hexDigitChar n ≠ 'x' := by decide

theorem unhexlify_hexlify (bs : List Nat) (h : ∀ b ∈ bs, b < 256) :
    unhexlify (hexlify bs) = .ok bs := by
  induction bs with
  | nil => rfl
  | cons b rest ih =>
    have hb : b < 256 := h b (by simp)
    simp only [hexlify, unhexlify]
    rw [hexDigitVal_hexDigitChar _ (by omega), hexDigitVal_hexDigitChar _ (by omega),
      ih (fun x hx => h x (by simp [hx]))]
    have hq : b / 16 * 16 + b % 16 = b := by omega
    simp [hq]

theorem mem_hexlify_ne_x (bs : List Nat) (h : ∀ b ∈ bs, b < 256) :
    ∀ c ∈ hexlify bs, c ≠ 'x' := by
  induction bs with
  | nil => simp [hexlify]
  | cons b rest ih =>
    intro c hc
    have hb : b < 256 := h b (by simp)
    simp only [hexlify, List.mem_cons] at hc
    rcases hc with h1 | h2 | h3
    · rw [h1]; exact hexDigitChar_ne_x _ (by omega)
    · rw [h2]; exact hexDigitChar_ne_x _ (by omega)
    · exact ih (fun x hx => h x (by simp [hx])) c h3

theorem afterLastOpt_eq_none (s : List Char) (h : 'x' ∉ s) :
    afterLastOpt ['0', 'x'] s = none := by
  induction s with
  | nil => rfl
  | cons c rest ih =>
    have hx : 'x' ∉ rest := fun hr => h (by simp [hr])
    simp only [afterLastOpt, ih hx]
    cases rest with
    | nil => simp [List.isPrefixOf]
    | cons d rest2 =>
      have hd : ¬('x' = d) := fun he => h (by simp [he.symm])
      simp [List.isPrefixOf, hd]

/-- On a pretty-print forced into the hex branch, the Python
`split` and `[-1]` step recovers exactly the hex digits. -/
theorem pySplitLast_pretty (bs : List Nat) (h256 : ∀ b ∈ bs, b < 256)
    (hbad : ∃ b ∈ bs, b < 32 ∨ 126 < b) :
    pySplitLast ['0', 'x'] (prettyPrintOctets bs) = hexlify bs := by
  have hany : bs.any (fun b => decide (b < 32 ∨ 126 < b)) = true := by
    rcases hbad with ⟨b, hb, hcond⟩
    exact List.any_eq_true.2 ⟨b, hb, by simpa using hcond⟩
  unfold prettyPrintOctets
  rw [if_pos hany]
  have hnil : afterLastOpt ['0', 'x'] (hexlify bs) = none :=
    afterLastOpt_eq_none _ (fun hm => mem_hexlify_ne_x bs h256 'x' hm rfl)
  unfold pySplitLast
  simp [afterLastOpt, List.isPrefixOf, hnil]

/-- The inner-unwrap stage of `scts_from_cert` recovers the wrapped
payload whenever the payload is empty or has at least one octet
outside the printable ASCII range (the hex branch of the pretty
print). -/
theorem unwrap_extnValue_roundtrip (p : List Nat) (h256 : ∀ b ∈ p, b < 256)
    (h : p = [] ∨ ∃ b ∈ p, b < 32 ∨ 126 < b) :
    unwrap_extnValue (derOctetString p) = .ok p := by
  unfold unwrap_extnValue
  rw [decode_derOctetString]
  show unhexlify (pySplitLast ['0', 'x'] (prettyPrintOctets p)) = .ok p
  rcases h with rfl | hbad
  · rfl
  · rw [pySplitLast_pretty p h256 hbad, unhexlify_hexlify p h256]

/-- A successful run of the extension hook changes nothing but the
extension capture slot: the flags and the OCSP buffer survive. -/
theorem serverinfo_cli_parse_cb_preserves (ctx : Ctx) (t : Nat)
    (buf : List Nat) (n : Nat) (c : Ctx) (k : Nat)
    (h : serverinfo_cli_parse_cb ctx t buf n = .ok (c, k)) :
    c.scts_tls = ctx.scts_tls ∧ c.scts_ocsp = ctx.scts_ocsp ∧
      c.ocsp_resps = ctx.ocsp_resps := by
  unfold serverinfo_cli_parse_cb at h
  by_cases ht : t = 18
  · rw [if_pos ht] at h
    cases hp : structPackHHs t n n (buf.take n) with
    | ok v =>
      rw [hp] at h
      simp only [Except.ok.injEq, Prod.mk.injEq] at h
      rw [← h.1]
      exact ⟨rfl, rfl, rfl⟩
    | error e => rw [hp] at h; cases h
  · rw [if_neg ht] at h
    simp only [Except.ok.injEq, Prod.mk.injEq] at h
    rw [← h.1]
    exact ⟨rfl, rfl, rfl⟩

/-- Effect of one hook invocation on the observable context fields:
flags are untouched, and the OCSP buffer grows by exactly the stapled
response of an OCSP event when the OCSP hook is registered. -/
theorem applyEvent_fields (ctx : Ctx) (ev : NetEvent) :
    (applyEvent ctx ev).scts_tls = ctx.scts_tls ∧
    (applyEvent ctx ev).scts_ocsp = ctx.scts_ocsp ∧
    (applyEvent ctx ev).ocsp_resps =
      ctx.ocsp_resps ++ (if ctx.scts_ocsp then (ocspData ev).toList else []) := by
  cases ev with
  | ext18 t buf n =>
    simp only [applyEvent, ocspData, Option.toList, List.append_nil, if_neg,
      ite_self]
    by_cases h : ctx.scts_tls = true
    · rw [if_pos h]
      cases hp : serverinfo_cli_parse_cb ctx t buf n with
      | ok pr =>
        obtain ⟨c, k⟩ := pr
        obtain ⟨h1, h2, h3⟩ :=
          serverinfo_cli_parse_cb_preserves ctx t buf n c k hp
        simp [h1, h2, h3]
      | error e => simp
    · rw [if_neg h]
      simp
  | ocsp d =>
    simp only [applyEvent, ocsp_client_callback, ocspData, Option.toList]
    by_cases h : ctx.scts_ocsp = true
    · rw [if_pos h, if_pos h]
      simp
    · rw [if_neg h, if_neg h]
      simp

/-- Running all hook invocations of a handshake leaves the flags
untouched and, when the OCSP hook is registered, extends the OCSP
buffer by the stapled responses in arrival order. -/
theorem runEvents_fields (events : List NetEvent) (ctx : Ctx) :
    (runEvents ctx events).scts_tls = ctx.scts_tls ∧
    (runEvents ctx events).scts_ocsp = ctx.scts_ocsp ∧
    (runEvents ctx events).ocsp_resps =
      ctx.ocsp_resps ++
        (if ctx.scts_ocsp then events.filterMap ocspData else []) := by
  induction events generalizing ctx with
  | nil => simp [runEvents]
  | cons ev rest ih =>
    obtain ⟨h1, h2, h3⟩ := applyEvent_fields ctx ev
    obtain ⟨g1, g2, g3⟩ := ih (applyEvent ctx ev)
    have hrun : runEvents ctx (ev :: rest) = runEvents (applyEvent ctx ev) rest := by
      simp [runEvents]
    refine ⟨by rw [hrun, g1, h1], by rw [hrun, g2, h2], ?_⟩
    rw [hrun, g3, h2, h3]
    by_cases h : ctx.scts_ocsp = true
    · rw [if_pos h, if_pos h, if_pos h, List.append_assoc]
      cases hd : ocspData ev <;> simp [List.filterMap_cons, hd]
    · rw [if_neg h, if_neg h, if_neg h]
      simp

/-- Helper: unpacking the packed `!HH<L>s` record recovers the fields. -/
theorem unpack_ext18_record_pack (t L : Nat) (payload : List Nat)
    (ht : t < 65536) (hL : L < 65536) (hlen : payload.length = L) :
    unpack_ext18_record (u16be t ++ u16be L ++ payload) = some (t, L, payload) := by
  show unpack_ext18_record
      (t / 256 :: t % 256 :: L / 256 :: L % 256 :: payload) = some (t, L, payload)
  have e1 : t / 256 * 256 + t % 256 = t := by omega
  have e2 : L / 256 * 256 + L % 256 = L := by omega
  simp [unpack_ext18_record, e1, e2, hlen]

/-- C2 counterexample: the claim quantifies over every possible payload,
but for the all-printable payload `[97, 98]` (the text `ab`) the pretty
print takes its text branch, the split leaves the text unchanged, and
the hex parse turns it into the single byte `171`, not the original
payload.  So the unwrap stage of `scts_from_cert` does not return the
wrapped payload here, and `scts_from_cert` hands the wrong bytes to
the external codec. -/
theorem C2_unwrap_counterexample :
    scts_from_cert (fun b => [b])
        ⟨[⟨"1.3.6.1.4.1.11129.2.4.2", derOctetString [97, 98]⟩]⟩ =
      .ok [[171]] ∧
    unwrap_extnValue (derOctetString [97, 98]) ≠ .ok [97, 98] := by
  refine ⟨rfl, fun h => ?_⟩
  rw [show unwrap_extnValue (derOctetString [97, 98]) = .ok [171] from rfl] at h
  exact absurd (Except.ok.inj h) (by decide)

/-- C2 (amended): for every certificate whose first Certificate
Transparency extension wraps payload `P` in a DER octet string, and
every payload `P` of bytes that is empty or contains at least one byte
outside the printable ASCII range 32..126, `scts_from_cert` unwraps
the inner container to exactly `P` and hands `P` to the external list
codec.  (The printability restriction is forced by the counterexample:
the pretty-print-and-hex-parse round trip of the source only inverts
on the hex branch.) -/
theorem C2_unwrap_roundtrip_amended (P : List Nat)
    (codec : List Nat → List (List Nat)) (cert : CertStruct)
    (ext : Extension) (exts : List Extension)
    (h256 : ∀ b ∈ P, b < 256)
    (hnp : P = [] ∨ ∃ b ∈ P, b < 32 ∨ 126 < b)
    (hf : cert.extensions.filter isCtExtension = ext :: exts)
    (hv : ext.extnValue = derOctetString P) :
    scts_from_cert codec cert = .ok (codec P) := by
  have hu : unwrap_extnValue ext.extnValue = .ok P := by
    rw [hv]
    exact unwrap_extnValue_roundtrip P h256 hnp
  unfold scts_from_cert
  rw [hf]
  simp only [hu]

theorem C2_unwrap_roundtrip_amended_witness :
    scts_from_cert (fun b => [b])
        ⟨[⟨"1.3.6.1.4.1.11129.2.4.2", derOctetString [200]⟩]⟩ = .ok [[200]] :=
  C2_unwrap_roundtrip_amended [200] (fun b => [b])
    ⟨[⟨"1.3.6.1.4.1.11129.2.4.2", derOctetString [200]⟩]⟩
    ⟨"1.3.6.1.4.1.11129.2.4.2", derOctetString [200]⟩ []
    (by decide) (by decide) (by decide) rfl

/-- C5: on a well-formed certificate whose extension list has no entry
with the Certificate Transparency object identifier, `scts_from_cert`
returns the empty sequence successfully, whatever the external codec
is: empty is success, not an error. -/
theorem C5_no_ct_extension_empty (codec : List Nat → List (List Nat))
    (cert : CertStruct)
    (h : ∀ e ∈ cert.extensions, e.extnID ≠ "1.3.6.1.4.1.11129.2.4.2") :
    scts_from_cert codec cert = .ok [] := by
  unfold scts_from_cert
  have hf : cert.extensions.filter isCtExtension = [] := by
    rw [List.filter_eq_nil_iff]
    intro e he
    simpa [isCtExtension] using h e he
  rw [hf]

theorem C5_no_ct_extension_empty_witness :
    scts_from_cert (fun b => [b]) ⟨[⟨"2.5.29.15", [1, 2, 3]⟩]⟩ = .ok [] :=
  C5_no_ct_extension_empty (fun b => [b]) ⟨[⟨"2.5.29.15", [1, 2, 3]⟩]⟩
    (by decide)

/-- C3: invoking the extension hook with type 18, declared length `L`
up to 65535 and a payload of exactly `L` bytes succeeds, returns `1`,
and stores the 4+L-byte record made of big-endian uint16 `18`,
big-endian uint16 `L`, and the payload, which decodes back to
`(18, L, payload)` exactly. -/
theorem C3_ext18_record_roundtrip (ctx : Ctx) (L : Nat) (payload : List Nat)
    (hlen : payload.length = L) (hL : L ≤ 65535) :
    ∃ ctx2, serverinfo_cli_parse_cb ctx 18 payload L = .ok (ctx2, 1) ∧
      ctx2.tls_extension_18_tdf = some (u16be 18 ++ u16be L ++ payload) ∧
      (u16be 18 ++ u16be L ++ payload).length = 4 + L ∧
      unpack_ext18_record (u16be 18 ++ u16be L ++ payload) =
        some (18, L, payload) := by
  subst hlen
  have hpack : structPackHHs 18 payload.length payload.length
      (payload.take payload.length) =
      .ok (u16be 18 ++ u16be payload.length ++ payload) := by
    unfold structPackHHs
    rw [if_pos ⟨by norm_num, by omega⟩]
    simp [List.take_length, Nat.sub_self]
  have key : serverinfo_cli_parse_cb ctx 18 payload payload.length =
      .ok ({ ctx with
              tls_extension_18_tdf :=
                some (u16be 18 ++ u16be payload.length ++ payload) }, 1) := by
    unfold serverinfo_cli_parse_cb
    rw [if_pos rfl, hpack]
  have hlen4 : (u16be 18 ++ u16be payload.length ++ payload).length =
      4 + payload.length := by
    simp only [u16be, List.length_append, List.length_cons, List.length_nil]
  exact ⟨_, key, rfl, hlen4,
    unpack_ext18_record_pack 18 payload.length payload (by norm_num)
      (by omega) rfl⟩

theorem C3_ext18_record_roundtrip_witness :
    ∃ ctx2, serverinfo_cli_parse_cb (create_context true true) 18 [7, 9] 2 =
        .ok (ctx2, 1) ∧
      ctx2.tls_extension_18_tdf = some (u16be 18 ++ u16be 2 ++ [7, 9]) ∧
      (u16be 18 ++ u16be 2 ++ [7, 9]).length = 4 + 2 ∧
      unpack_ext18_record (u16be 18 ++ u16be 2 ++ [7, 9]) =
        some (18, 2, [7, 9]) :=
  C3_ext18_record_roundtrip (create_context true true) 2 [7, 9] rfl (by omega)

/-- C6: the extension hook reports acceptance (returns `1`) on every
invocation the TLS layer can produce: for any extension type other
than 18 unconditionally, and for type 18 whenever the declared length
fits the 16-bit extension length field of TLS, which every on-wire
invocation satisfies. -/
theorem C6_ext18_hook_always_accepts (ctx : Ctx) (ext_type : Nat)
    (inBuf : List Nat) (inlen : Nat) (h : ext_type = 18 → inlen < 65536) :
    ∃ ctx2, serverinfo_cli_parse_cb ctx ext_type inBuf inlen = .ok (ctx2, 1) := by
  unfold serverinfo_cli_parse_cb
  by_cases ht : ext_type = 18
  · subst ht
    rw [if_pos rfl]
    unfold structPackHHs
    rw [if_pos ⟨by norm_num, h rfl⟩]
    exact ⟨_, rfl⟩
  · rw [if_neg ht]
    exact ⟨ctx, rfl⟩

theorem C6_ext18_hook_always_accepts_witness :
    ∃ ctx2, serverinfo_cli_parse_cb (create_context true false) 18 [1] 1 =
      .ok (ctx2, 1) :=
  C6_ext18_hook_always_accepts (create_context true false) 18 [1] 1
    (fun _ => by omega)

/-- The DER serialisation of a certificate is never empty: it always
starts with the SEQUENCE tag byte. -/
theorem dump_certificate_ne_nil (c : Cert) : dump_certificate c ≠ [] := by
  simp [dump_certificate]

/-- C9: the peer-verification callback installed by `create_context`
returns success for every connection, certificate, error number, depth
and preliminary verdict, so the verification outcome is independent of
the actual validity of the chain; and the certifi public CA bundle is
still loaded into the context. -/
theorem C9_verification_forced_success (scts_tls scts_ocsp : Bool)
    (conn : Nat) (cert : Cert) (errnum : Int) (depth : Nat)
    (preverify : Nat) :
    (create_context scts_tls scts_ocsp).verify_cb conn cert errnum depth
        preverify = 1 ∧
    (create_context scts_tls scts_ocsp).ca_loaded = true :=
  ⟨rfl, rfl⟩

/-- C10: on every invocation of `do_handshake` — both capture flags
arbitrary, including `scts_ocsp = false`, and any network behaviour —
the very first socket operation is the OCSP stapling request, followed
by the connect: the stapling request is unconditional and precedes
connecting and the handshake. -/
theorem C10_request_ocsp_unconditional (domain : String)
    (scts_tls scts_ocsp : Bool) (net : NetBehavior) :
    ∃ rest, (do_handshake domain scts_tls scts_ocsp net).2 =
      SockOp.reqOcsp :: SockOp.connect :: rest := by
  cases net
  · exact ⟨_, rfl⟩
  · exact ⟨_, rfl⟩
  · exact ⟨_, rfl⟩

/-- C8: on every exit path of `do_handshake` — connect failure,
handshake failure, and success — the socket is closed exactly once. -/
theorem C8_socket_closed_once (domain : String) (scts_tls scts_ocsp : Bool)
    (net : NetBehavior) :
    (do_handshake domain scts_tls scts_ocsp net).2.count SockOp.close = 1 := by
  cases net
  · rfl
  · rfl
  · rfl

/-- C7: when the OCSP hook is registered and invoked at least once
during a successful handshake, the orchestrator result carries exactly
the first observed response; later responses are not part of the
result. -/
theorem C7_first_ocsp_retained (domain : String) (scts_tls : Bool)
    (events : List NetEvent) (peerCert : Cert) (chain : List Cert)
    (r : List Nat) (rs : List (List Nat))
    (h : events.filterMap ocspData = r :: rs) :
    ∃ res, (do_handshake domain scts_tls true (.ok events peerCert chain)).1 =
        .ok res ∧
      res.2.2.1 = some r := by
  obtain ⟨-, -, h3⟩ := runEvents_fields events (create_context scts_tls true)
  have hfields : (runEvents (create_context scts_tls true) events).ocsp_resps =
      r :: rs := by
    rw [h3]
    simp [create_context, h]
  refine ⟨_, rfl, ?_⟩
  simp [hfields]

theorem C7_first_ocsp_retained_witness :
    ∃ res, (do_handshake "example.com" true true
        (.ok [NetEvent.ocsp [1], NetEvent.ocsp [2]] ⟨[]⟩ [])).1 = .ok res ∧
      res.2.2.1 = some [1] :=
  C7_first_ocsp_retained "example.com" true
    [NetEvent.ocsp [1], NetEvent.ocsp [2]] ⟨[]⟩ [] [1] [[2]] rfl

/-- C1: after a successful handshake presenting a chain of at least two
certificates, with the separately-retrieved peer certificate matching
the first chain entry (the TLS-layer cross-check), `cert_of_domain`
succeeds and returns as leaf bytes the canonical DER encoding of that
leaf (equal to the encoding of the first chain entry) and as issuer
bytes the encoding of the second chain entry, both non-empty. -/
theorem C1_cert_of_domain_leaf_issuer (domain : String)
    (scts_tls scts_ocsp : Bool) (events : List NetEvent) (peerCert : Cert)
    (chain : List Cert) (hlen : 2 ≤ chain.length)
    (hcross : chain.get? 0 = some peerCert) :
    ∃ issuer, chain.get? 1 = some issuer ∧
      ∃ o t, (cert_of_domain domain scts_tls scts_ocsp
          (.ok events peerCert chain)).1 =
        .ok (dump_certificate peerCert, dump_certificate issuer, o, t) ∧
      dump_certificate peerCert ≠ [] ∧ dump_certificate issuer ≠ [] := by
  have h1 : 1 < chain.length := by omega
  obtain ⟨issuer, hiss⟩ : ∃ i, chain.get? 1 = some i := by
    cases hg : chain.get? 1 with
    | none =>
      rw [List.get?_eq_none] at hg
      omega
    | some i => exact ⟨i, rfl⟩
  refine ⟨issuer, hiss, ?_⟩
  simp only [cert_of_domain, do_handshake, hiss]
  exact ⟨_, _, rfl, dump_certificate_ne_nil peerCert,
    dump_certificate_ne_nil issuer⟩

theorem C1_cert_of_domain_leaf_issuer_witness :
    ∃ issuer, ([⟨[1]⟩, ⟨[2]⟩] : List Cert).get? 1 = some issuer ∧
      ∃ o t, (cert_of_domain "example.com" true true
          (.ok [] ⟨[1]⟩ [⟨[1]⟩, ⟨[2]⟩])).1 =
        .ok (dump_certificate ⟨[1]⟩, dump_certificate issuer, o, t) ∧
      dump_certificate (⟨[1]⟩ : Cert) ≠ [] ∧ dump_certificate issuer ≠ [] :=
  C1_cert_of_domain_leaf_issuer "example.com" true true [] ⟨[1]⟩
    [⟨[1]⟩, ⟨[2]⟩] (by decide) rfl

/-- C4: after a successful handshake whose chain has fewer than two
entries, `cert_of_domain` fails with the missing-issuer fault raised
by the issuer access `chain[1]`, which reaches the caller as the
distinct exception type `IndexError`, distinguishable from the
transport fault types. -/
theorem C4_missing_issuer_fault (domain : String) (scts_tls scts_ocsp : Bool)
    (events : List NetEvent) (peerCert : Cert) (chain : List Cert)
    (h : chain.length ≤ 1) :
    (cert_of_domain domain scts_tls scts_ocsp (.ok events peerCert chain)).1 =
      .error PyExc.indexError ∧
    PyExc.indexError ≠ PyExc.connectionError ∧
    PyExc.indexError ≠ PyExc.sslError := by
  have hg : chain.get? 1 = none := List.get?_eq_none.2 h
  have hg2 : chain[1]? = none := by
    rw [← List.get?_eq_getElem?]
    exact hg
  refine ⟨?_, by decide, by decide⟩
  simp [cert_of_domain, do_handshake, hg, hg2]

theorem C4_missing_issuer_fault_witness :
    (cert_of_domain "example.com" true true
        (.ok [] ⟨[1]⟩ [⟨[1]⟩])).1 = .error PyExc.indexError ∧
    PyExc.indexError ≠ PyExc.connectionError ∧
    PyExc.indexError ≠ PyExc.sslError :=
  C4_missing_issuer_fault "example.com" true true [] ⟨[1]⟩ [⟨[1]⟩]
    (by decide)
